import Mathlib

/-!
Shallow embedding of the vibe-triolingo backend's progression and gamification
logic (routes `lessons.ts`, `users.ts`, `languages.ts`), together with theorems
settling the specification claims about it.

Conventions of the embedding:
* Database rows become Lean structures; the tables touched by one request
  become an explicit state record threaded through the handler.
* JavaScript numbers holding integral values become `Int`; `Math.floor (a / b)`
  on integral inputs is `Int.fdiv a b`; timestamps are milliseconds as `Int`.
* `prisma.….find…` becomes `List.find?`; an upsert or update becomes a
  `List.map` that rewrites the matching rows; `create` appends.
* A handler that can reject becomes a function returning the post-state and an
  `Except` value; an early `return res.status(...)` is an `.error` leaving the
  state unchanged.  To model a persistence fault in the middle of the handler
  (there is no transaction in the source), `completeLesson` takes a record of
  flags saying which awaited write rejects; a rejecting write throws, the
  `catch` answers 500 (`.internal`) and the writes already awaited remain.
-/

/-- One row of the `User` table, restricted to the fields the progression
logic reads or writes. -/
structure UserRow where
  experience : Int
  level : Int
  streak : Int
  lastLogin : Option Int
deriving DecidableEq, Repr

/-- One row of the `Lesson` table (fields used by the handlers). -/
structure LessonRow where
  id : Nat
  languageId : Nat
  title : String
  isActive : Bool
deriving DecidableEq, Repr

/-- One row of the `Exercise` table (fields used by the handlers). -/
structure ExerciseRow where
  lessonId : Nat
  points : Int
  isActive : Bool
deriving DecidableEq, Repr

/-- One row of the `Enrollment` table. -/
structure EnrollmentRow where
  id : Nat
  userId : Nat
  languageId : Nat
  isActive : Bool
  startedAt : Int
deriving DecidableEq, Repr

/-- One row of the `Progress` table. -/
structure ProgressRow where
  userId : Nat
  lessonId : Nat
  enrollmentId : Nat
  score : Int
  timeSpent : Int
  completed : Bool
  completedAt : Option Int
deriving DecidableEq, Repr

/-- One row of the `Achievement` table. -/
structure AchievementRow where
  userId : Nat
  type : String
  title : String
  description : String
  icon : String
deriving DecidableEq, Repr

/-- The mutable state a request touches: the acting user's `User` row and the
`Progress`, `Achievement` and `Enrollment` tables. -/
structure St where
  user : UserRow
  progress : List ProgressRow
  achievements : List AchievementRow
  enrollments : List EnrollmentRow
deriving DecidableEq, Repr

/-- Milliseconds per day, the divisor `1000 * 60 * 60 * 24` used by the streak
check. -/
def msPerDay : Int := 1000 * 60 * 60 * 24

/-- Response shape of `GET /users/streak`. -/
structure StreakResp where
  streak : Int
  lastLogin : Option Int
deriving DecidableEq, Repr

/-- Embedding of the `GET /users/streak` handler (users.ts, lines 203-259).
Returns the updated `User` row and the JSON response.  Mirrors the source: a
`daysSinceLastLogin` of exactly 1 sets `shouldUpdateStreak`, a larger gap
writes `streak := 0`, an absent `lastLogin` sets `shouldUpdateStreak`; when
the flag is set, `streak := streak + 1` is written.  No branch writes
`lastLogin`. -/
def checkStreak (now : Int) (u : UserRow) : UserRow × StreakResp :=
  let step : UserRow × Bool :=
    match u.lastLogin with
    | some last =>
        let daysSinceLastLogin := Int.fdiv (now - last) msPerDay
        if daysSinceLastLogin = 1 then (u, true)
        else if daysSinceLastLogin > 1 then ({ u with streak := 0 }, false)
        else (u, false)
    | none => (u, true)
  let u2 := if step.2 then { step.1 with streak := step.1.streak + 1 } else step.1
  (u2, { streak := u2.streak, lastLogin := u2.lastLogin })

/-- Sum of the points of the lesson's active exercises, as computed by
`lessons.ts` lines 183-188: fetch active exercises of the lesson and reduce
their `points` with `+` from 0. -/
def totalPossiblePoints (exercises : List ExerciseRow) (lessonId : Nat) : Int :=
  (exercises.filter (fun ex => ex.lessonId == lessonId && ex.isActive)).foldl
    (fun sum ex => sum + ex.points) 0

/-- The `update` arm of the progress upsert (lessons.ts, lines 199-204),
applied to the rows matching the `userId_lessonId` key. -/
def overwriteProgress (userId lessonId : Nat) (finalScore timeSpent now : Int)
    (p : ProgressRow) : ProgressRow :=
  if p.userId == userId && p.lessonId == lessonId then
    { p with score := finalScore, timeSpent := timeSpent,
             completed := true, completedAt := some now }
  else p

/-- `prisma.progress.upsert` keyed on `userId_lessonId` (lessons.ts,
lines 192-214): overwrite the matching row, or append a fresh one. -/
def upsertProgress (userId lessonId enrollmentId : Nat)
    (finalScore timeSpent now : Int) (l : List ProgressRow) : List ProgressRow :=
  if l.any (fun p => p.userId == userId && p.lessonId == lessonId) then
    l.map (overwriteProgress userId lessonId finalScore timeSpent now)
  else
    l ++ [⟨userId, lessonId, enrollmentId, finalScore, timeSpent, true, some now⟩]

/-- The achievement row created on a level-up (lessons.ts, lines 237-245). -/
def levelUpAchievement (userId : Nat) (newLevel : Int) : AchievementRow :=
  { userId := userId
    type := "level_up"
    title := s!"Level {newLevel}!"
    description := s!"Congratulations! You\x27ve reached level {newLevel}"
    icon := "🎉" }

/-- The title `"Perfect Score in <lessonTitle>"` (lessons.ts, line 255). -/
def perfectScoreTitle (lessonTitle : String) : String :=
  s!"Perfect Score in {lessonTitle}"

/-- The achievement row created on a perfect score (lessons.ts, lines
260-268). -/
def perfectScoreAchievement (userId : Nat) (lessonTitle : String) : AchievementRow :=
  { userId := userId
    type := "perfect_score"
    title := perfectScoreTitle lessonTitle
    description := s!"You got a perfect score in {lessonTitle}!"
    icon := "⭐" }

/-- The `prisma.achievement.findFirst` filter used for perfect-score dedup
(lessons.ts, lines 251-257). -/
def perfectPred (userId : Nat) (lessonTitle : String) (a : AchievementRow) : Bool :=
  a.userId == userId && a.type == "perfect_score" &&
    a.title == perfectScoreTitle lessonTitle

/-- Failure kinds of `POST /lessons/:id/complete`: the two early-return
rejections, and the 500 produced by the `catch` when an awaited database
write rejects. -/
inductive CompleteErr
  | lessonNotFound
  | notEnrolled
  | internal
deriving DecidableEq, Repr

/-- The progression fields of the completion response (lessons.ts,
lines 272-277). -/
structure CompleteResp where
  experienceGained : Int
  newLevel : Int
deriving DecidableEq, Repr

/-- Fault model for the database writes awaited by the completion handler:
each flag says whether the corresponding write succeeds.  The source wraps
the handler in `try/catch` with no transaction, so a rejecting write leaves
every earlier write in place. -/
structure DbFx where
  upsertOk : Bool
  userUpdateOk : Bool
  levelUpCreateOk : Bool
  perfectCreateOk : Bool
deriving DecidableEq, Repr

/-- All database writes succeed. -/
def fxAll : DbFx := ⟨true, true, true, true⟩

/-- Embedding of the `POST /lessons/:id/complete` handler (lessons.ts,
lines 154-283).  Returns the post-request state (including writes performed
before a mid-sequence fault) and the outcome.  Steps, in source order:
find the active lesson, find the active enrollment, clamp the reported score
with `Math.min`, upsert the progress row, add `floor(finalScore / 10)`
experience and re-derive the level, create a `level_up` achievement when the
level grew, and create a deduplicated `perfect_score` achievement when the
clamped score equals the total. -/
def completeLesson (fx : DbFx) (lessons : List LessonRow)
    (exercises : List ExerciseRow) (userId lessonId : Nat)
    (score timeSpent now : Int) (st : St) : St × Except CompleteErr CompleteResp :=
  match lessons.find? (fun l => l.id == lessonId && l.isActive) with
  | none => (st, .error .lessonNotFound)
  | some lesson =>
    match st.enrollments.find? (fun e =>
        e.userId == userId && e.languageId == lesson.languageId && e.isActive) with
    | none => (st, .error .notEnrolled)
    | some enrollment =>
      let totalPoints := totalPossiblePoints exercises lessonId
      let finalScore := min score totalPoints
      if fx.upsertOk = false then (st, .error .internal) else
      let st1 := { st with progress := (upsertProgress userId lessonId
        enrollment.id finalScore timeSpent now st.progress) }
      let experienceGained := Int.fdiv finalScore 10
      let user := st1.user
      if fx.userUpdateOk = false then (st1, .error .internal) else
      let newExperience := user.experience + experienceGained
      let newLevel := Int.fdiv newExperience 100 + 1
      let st2 := { st1 with user :=
        { user with experience := newExperience, level := newLevel } }
      if newLevel > user.level ∧ fx.levelUpCreateOk = false then
        (st2, .error .internal) else
      let st3 := if newLevel > user.level then
        { st2 with achievements :=
          st2.achievements ++ [levelUpAchievement userId newLevel] }
        else st2
      let hasPerfect := st3.achievements.any (perfectPred userId lesson.title)
      if finalScore = totalPoints ∧ hasPerfect = false ∧ fx.perfectCreateOk = false then
        (st3, .error .internal) else
      let st4 := if finalScore = totalPoints ∧ hasPerfect = false then
        { st3 with achievements :=
          st3.achievements ++ [perfectScoreAchievement userId lesson.title] }
        else st3
      (st4, .ok { experienceGained := experienceGained
                  newLevel := Int.fdiv (user.experience + experienceGained) 100 + 1 })

/-- One row of the `Language` table (fields used by the handlers). -/
structure LanguageRow where
  id : Nat
  isActive : Bool
deriving DecidableEq, Repr

/-- Failure kinds of `POST /languages/:id/enroll`. -/
inductive EnrollErr
  | languageNotFound
  | alreadyEnrolled
deriving DecidableEq, Repr

/-- Embedding of the `POST /languages/:id/enroll` handler (languages.ts,
lines 68-125).  `freshId` stands for the id the database generates for a newly
created row. -/
def enroll (languages : List LanguageRow) (userId languageId freshId : Nat)
    (now : Int) (st : St) : Except EnrollErr St :=
  match languages.find? (fun l => l.id == languageId && l.isActive) with
  | none => .error .languageNotFound
  | some _ =>
    match st.enrollments.find?
        (fun e => e.userId == userId && e.languageId == languageId) with
    | some existing =>
        if existing.isActive then .error .alreadyEnrolled
        else .ok { st with enrollments := st.enrollments.map (fun r =>
          if r.id == existing.id then { r with isActive := true, startedAt := now }
          else r) }
    | none =>
        .ok { st with enrollments :=
          st.enrollments ++ [⟨freshId, userId, languageId, true, now⟩] }

/-- Failure kind of `DELETE /languages/:id/enroll`. -/
inductive UnenrollErr
  | notFound
deriving DecidableEq, Repr

/-- Embedding of the `DELETE /languages/:id/enroll` handler (languages.ts,
lines 180-209): look the enrollment up by the `(userId, languageId)` unique
key — with no `isActive` condition — and soft-delete it by id. -/
def unenroll (userId languageId : Nat) (st : St) : Except UnenrollErr St :=
  match st.enrollments.find?
      (fun e => e.userId == userId && e.languageId == languageId) with
  | none => .error .notFound
  | some e =>
      .ok { st with enrollments := st.enrollments.map (fun r =>
        if r.id == e.id then { r with isActive := false } else r) }

/-- The soft-delete rewrite applied by `unenroll` to each enrollment row. -/
def deactivateIfId (i : Nat) (r : EnrollmentRow) : EnrollmentRow :=
  if r.id == i then { r with isActive := false } else r

theorem overwriteProgress_key (userId lessonId : Nat)
    (finalScore timeSpent now : Int) (p : ProgressRow) :
    (overwriteProgress userId lessonId finalScore timeSpent now p).userId = p.userId ∧
    (overwriteProgress userId lessonId finalScore timeSpent now p).lessonId = p.lessonId := by
  unfold overwriteProgress
  split <;> exact ⟨rfl, rfl⟩

/-- After the upsert, the row at the `userId_lessonId` key exists, carries the
written score and is marked completed. -/
theorem upsertProgress_find? (userId lessonId enrollmentId : Nat)
    (finalScore timeSpent now : Int) (l : List ProgressRow) :
    ∃ p, (upsertProgress userId lessonId enrollmentId finalScore timeSpent now
        l).find? (fun q => q.userId == userId && q.lessonId == lessonId) = some p ∧
      p.score = finalScore ∧ p.completed = true := by
  set pk : ProgressRow → Bool :=
    fun q => q.userId == userId && q.lessonId == lessonId with hpk
  unfold upsertProgress
  by_cases hAny : l.any pk = true
  · rw [if_pos hAny]
    have hpf : pk ∘ overwriteProgress userId lessonId finalScore timeSpent now = pk := by
      funext q
      simp [hpk, Function.comp,
        (overwriteProgress_key userId lessonId finalScore timeSpent now q).1,
        (overwriteProgress_key userId lessonId finalScore timeSpent now q).2]
    have hSome : (l.find? pk).isSome := by
      rw [List.find?_isSome]
      simpa [hpk] using List.any_eq_true.mp hAny
    obtain ⟨q, hq⟩ := Option.isSome_iff_exists.mp hSome
    have hpq : pk q = true := List.find?_some hq
    refine ⟨overwriteProgress userId lessonId finalScore timeSpent now q, ?_, ?_, ?_⟩
    · rw [List.find?_map, hpf, hq]
      rfl
    · unfold overwriteProgress
      rw [if_pos (by simpa [hpk] using hpq)]
    · unfold overwriteProgress
      rw [if_pos (by simpa [hpk] using hpq)]
  · rw [if_neg hAny]
    have hNone : l.find? pk = none := by
      rw [List.find?_eq_none]
      intro x hx
      have := (List.any_eq_false.mp (Bool.eq_false_iff.mpr hAny)) x hx
      simp [this]
    refine ⟨⟨userId, lessonId, enrollmentId, finalScore, timeSpent, true, some now⟩,
      ?_, rfl, rfl⟩
    rw [List.find?_append, hNone, Option.none_or]
    simp [hpk, List.find?]


theorem perfectPred_levelUpAchievement (userId uid : Nat) (n : Int) (t : String) :
    perfectPred userId t (levelUpAchievement uid n) = false := by
  have h : (("level_up" : String) == "perfect_score") = false := rfl
  simp [perfectPred, levelUpAchievement, h]

theorem perfectPred_perfectScoreAchievement (userId : Nat) (t : String) :
    perfectPred userId t (perfectScoreAchievement userId t) = true := by
  simp [perfectPred, perfectScoreAchievement]

/-- Characterization of a completion in which every database write succeeds:
given the lesson and enrollment lookups, the handler returns the fully
updated state and the success response. -/
theorem completeLesson_ok (lessons : List LessonRow) (exercises : List ExerciseRow)
    (userId lessonId : Nat) (score timeSpent now : Int) (st : St)
    (lesson : LessonRow) (enrollment : EnrollmentRow) (g nl : Int)
    (hLesson : lessons.find? (fun l => l.id == lessonId && l.isActive) = some lesson)
    (hEnroll : st.enrollments.find? (fun e =>
      e.userId == userId && e.languageId == lesson.languageId && e.isActive) =
      some enrollment)
    (hg : g = Int.fdiv (min score (totalPossiblePoints exercises lessonId)) 10)
    (hnl : nl = Int.fdiv (st.user.experience + g) 100 + 1) :
    completeLesson fxAll lessons exercises userId lessonId score timeSpent now st =
      ({ user := { st.user with experience := st.user.experience + g, level := nl },
         progress := (upsertProgress userId lessonId enrollment.id
           (min score (totalPossiblePoints exercises lessonId)) timeSpent now
           st.progress),
         achievements := st.achievements ++
           (if nl > st.user.level then [levelUpAchievement userId nl] else []) ++
           (if min score (totalPossiblePoints exercises lessonId) =
                totalPossiblePoints exercises lessonId ∧
                st.achievements.any (perfectPred userId lesson.title) = false then
             [perfectScoreAchievement userId lesson.title] else []),
         enrollments := st.enrollments },
       .ok { experienceGained := g, newLevel := nl }) := by
  subst hg hnl
  unfold completeLesson
  rw [hLesson]
  dsimp only
  rw [hEnroll]
  dsimp only [fxAll]
  simp only [Bool.true_eq_false, and_false, false_and, if_false, ite_false]
  by_cases hLvl : Int.fdiv (st.user.experience +
      Int.fdiv (min score (totalPossiblePoints exercises lessonId)) 10) 100 + 1 >
      st.user.level
  · simp only [if_pos hLvl, List.any_append, List.any_cons, List.any_nil,
      perfectPred_levelUpAchievement, Bool.or_false, Bool.false_or]
    by_cases hPs : min score (totalPossiblePoints exercises lessonId) =
        totalPossiblePoints exercises lessonId ∧
        st.achievements.any (perfectPred userId lesson.title) = false
    · simp only [if_pos hPs]
      try simp [List.append_assoc]
    · simp only [if_neg hPs]
      try simp [List.append_assoc]
  · simp only [if_neg hLvl]
    by_cases hPs : min score (totalPossiblePoints exercises lessonId) =
        totalPossiblePoints exercises lessonId ∧
        st.achievements.any (perfectPred userId lesson.title) = false
    · simp only [if_pos hPs]
      try simp [List.append_assoc]
    · simp only [if_neg hPs]
      try simp [List.append_assoc]


theorem deactivateIfId_id (i : Nat) (r : EnrollmentRow) :
    (deactivateIfId i r).id = r.id := by
  unfold deactivateIfId
  split <;> rfl

theorem deactivateIfId_key (i : Nat) (r : EnrollmentRow) :
    (deactivateIfId i r).userId = r.userId ∧
    (deactivateIfId i r).languageId = r.languageId := by
  unfold deactivateIfId
  split <;> exact ⟨rfl, rfl⟩

theorem deactivateIfId_idem (i : Nat) (r : EnrollmentRow) :
    deactivateIfId i (deactivateIfId i r) = deactivateIfId i r := by
  unfold deactivateIfId
  split <;> simp_all

theorem unenroll_eq_map (userId languageId : Nat) (st : St) (e : EnrollmentRow)
    (h : st.enrollments.find?
      (fun r => r.userId == userId && r.languageId == languageId) = some e) :
    unenroll userId languageId st =
      .ok { st with enrollments := st.enrollments.map (deactivateIfId e.id) } := by
  unfold unenroll deactivateIfId
  rw [h]

/-- `C10` — unenrolling needs only that some enrollment row exists for the
`(user, language)` pair, active or not: it then succeeds, the row ends up
inactive, and a second unenroll returns the same state and the same success;
with no row at all it fails with `NotFound`. -/
theorem unenroll_idempotent (userId languageId : Nat) (st : St) :
    (∀ e, st.enrollments.find?
        (fun r => r.userId == userId && r.languageId == languageId) = some e →
      ∃ st', unenroll userId languageId st = .ok st' ∧
        (∃ e', st'.enrollments.find?
            (fun r => r.userId == userId && r.languageId == languageId) = some e' ∧
          e'.isActive = false) ∧
        unenroll userId languageId st' = .ok st') ∧
    (st.enrollments.find?
        (fun r => r.userId == userId && r.languageId == languageId) = none →
      unenroll userId languageId st = .error .notFound) := by
  constructor
  · intro e hFind
    set p : EnrollmentRow → Bool :=
      fun r => r.userId == userId && r.languageId == languageId with hp
    have hpf : p ∘ deactivateIfId e.id = p := by
      funext r
      simp [hp, Function.comp, (deactivateIfId_key e.id r).1,
        (deactivateIfId_key e.id r).2]
    refine ⟨{ st with enrollments := st.enrollments.map (deactivateIfId e.id) },
      unenroll_eq_map userId languageId st e hFind, ?_, ?_⟩
    · refine ⟨deactivateIfId e.id e, ?_, ?_⟩
      · rw [List.find?_map, hpf, hFind]
        rfl
      · unfold deactivateIfId
        simp
    · have hFind' : (st.enrollments.map (deactivateIfId e.id)).find? p =
          some (deactivateIfId e.id e) := by
        rw [List.find?_map, hpf, hFind]
        rfl
      have := unenroll_eq_map userId languageId
        { st with enrollments := st.enrollments.map (deactivateIfId e.id) }
        (deactivateIfId e.id e) hFind'
      rw [this]
      have hmm : (st.enrollments.map (deactivateIfId e.id)).map
          (deactivateIfId (deactivateIfId e.id e).id) =
          st.enrollments.map (deactivateIfId e.id) := by
        rw [deactivateIfId_id, List.map_map]
        apply List.map_congr_left
        intro r _
        exact deactivateIfId_idem e.id r
      simp only [hmm]
  · intro hNone
    unfold unenroll
    rw [hNone]

/-- Witness for `C10`: a state holding one already-inactive enrollment for
user 7 in language 2 — unenrolling succeeds, leaves the row inactive, and is
idempotent. -/
theorem unenroll_idempotent_witness :
    ∃ st', unenroll 7 2 ⟨⟨0, 1, 0, none⟩, [], [], [⟨5, 7, 2, false, 0⟩]⟩ = .ok st' ∧
      (∃ e', st'.enrollments.find?
          (fun r => r.userId == 7 && r.languageId == 2) = some e' ∧
        e'.isActive = false) ∧
      unenroll 7 2 st' = .ok st' :=
  (unenroll_idempotent 7 2 ⟨⟨0, 1, 0, none⟩, [], [], [⟨5, 7, 2, false, 0⟩]⟩).1
    ⟨5, 7, 2, false, 0⟩ (by decide)

/-- `C7` — with a recorded `lastLogin`, a gap of exactly one day increments the
streak by exactly 1, and a gap of more than one day resets it to 0, whatever
the prior streak value. -/
theorem checkStreak_gap_cases (now : Int) (u : UserRow) (last : Int)
    (h : u.lastLogin = some last) :
    (Int.fdiv (now - last) msPerDay = 1 →
      (checkStreak now u).1.streak = u.streak + 1) ∧
    (Int.fdiv (now - last) msPerDay > 1 →
      (checkStreak now u).1.streak = 0) := by
  constructor
  · intro h1
    simp [checkStreak, h, h1]
  · intro h2
    have hne : ¬ Int.fdiv (now - last) msPerDay = 1 := by omega
    simp [checkStreak, h, hne, h2]

/-- Witness for `C7`: the spec's scenario — streak 3, last login two days ago —
resets to 0. -/
theorem checkStreak_gap_cases_witness :
    (checkStreak (2 * msPerDay) ⟨0, 1, 3, some 0⟩).1.streak = 0 :=
  (checkStreak_gap_cases (2 * msPerDay) ⟨0, 1, 3, some 0⟩ 0 rfl).2 (by decide)

/-- `C6` — the streak check is NOT idempotent within a day: with streak 3 and
`lastLogin` exactly one day before `now`, the first call yields streak 4 and a
second call at the same `now` yields streak 5, because no call updates
`lastLogin`. -/
theorem checkStreak_not_idempotent :
    (checkStreak msPerDay ⟨0, 1, 3, some 0⟩).1.streak = 4 ∧
    (checkStreak msPerDay (checkStreak msPerDay ⟨0, 1, 3, some 0⟩).1).1.streak = 5 := by
  decide

/-- `C8` — the streak check never updates `lastLogin`: with streak 3 and
`lastLogin` one day before `now`, the streak is mutated to 4, yet both the
stored and the returned `lastLogin` remain the old timestamp, not `now`. -/
theorem checkStreak_lastLogin_never_updated :
    (checkStreak msPerDay ⟨0, 1, 3, some 0⟩).1.streak = 4 ∧
    (checkStreak msPerDay ⟨0, 1, 3, some 0⟩).1.lastLogin = some 0 ∧
    (checkStreak msPerDay ⟨0, 1, 3, some 0⟩).2.lastLogin = some 0 ∧
    (some (msPerDay : Int) ≠ some (0 : Int)) := by
  decide

theorem foldl_add_points_nonneg (l : List ExerciseRow) (init : Int)
    (h0 : 0 ≤ init) (h : ∀ ex ∈ l, 0 ≤ ex.points) :
    0 ≤ l.foldl (fun sum ex => sum + ex.points) init := by
  induction l generalizing init with
  | nil => simpa using h0
  | cons x xs ih =>
      simp only [List.foldl_cons]
      refine ih (init + x.points) ?_ ?_
      · have := h x (by simp)
        omega
      · intro ex hex
        exact h ex (by simp [hex])

theorem totalPossiblePoints_nonneg (exercises : List ExerciseRow) (lessonId : Nat)
    (h : ∀ ex ∈ exercises, 0 ≤ ex.points) :
    0 ≤ totalPossiblePoints exercises lessonId := by
  unfold totalPossiblePoints
  refine foldl_add_points_nonneg _ _ le_rfl ?_
  intro ex hex
  exact h ex (List.mem_filter.mp hex).1

theorem fdiv_le_fdiv_of_le (a b c : Int) (hc : 0 < c) (h : a ≤ b) :
    Int.fdiv a c ≤ Int.fdiv b c := by
  rw [Int.fdiv_eq_ediv _ (le_of_lt hc), Int.fdiv_eq_ediv _ (le_of_lt hc)]
  exact Int.ediv_le_ediv hc h

/-- `C1` — the persisted score of a completed lesson is
`min(rawScore, totalPossiblePoints)` where `totalPossiblePoints` sums the
points of the lesson's active exercises; in particular any over-reported raw
score is clamped down to the total. -/
theorem completeLesson_clamps_score (lessons : List LessonRow)
    (exercises : List ExerciseRow) (userId lessonId : Nat)
    (score timeSpent now : Int) (st : St) (lesson : LessonRow)
    (enrollment : EnrollmentRow)
    (hLesson : lessons.find? (fun l => l.id == lessonId && l.isActive) = some lesson)
    (hEnroll : st.enrollments.find? (fun e =>
      e.userId == userId && e.languageId == lesson.languageId && e.isActive) =
      some enrollment) :
    ∃ p, ((completeLesson fxAll lessons exercises userId lessonId score timeSpent
        now st).1.progress.find?
        (fun q => q.userId == userId && q.lessonId == lessonId)) = some p ∧
      p.score = min score (totalPossiblePoints exercises lessonId) ∧
      (score > totalPossiblePoints exercises lessonId →
        p.score = totalPossiblePoints exercises lessonId) := by
  rw [completeLesson_ok lessons exercises userId lessonId score timeSpent now st
    lesson enrollment _ _ hLesson hEnroll rfl rfl]
  obtain ⟨p, h1, h2, _⟩ := upsertProgress_find? userId lessonId enrollment.id
    (min score (totalPossiblePoints exercises lessonId)) timeSpent now st.progress
  exact ⟨p, h1, h2, fun hgt => by rw [h2, min_eq_right (le_of_lt hgt)]⟩

/-- Witness for `C1`: a 20-point lesson completed with a reported score of 25
persists a score of `min 25 20 = 20`. -/
theorem completeLesson_clamps_score_witness :
    ∃ p, ((completeLesson fxAll [⟨1, 1, "Basics", true⟩] [⟨1, 20, true⟩] 1 1 25 60 0
        ⟨⟨0, 1, 0, none⟩, [], [], [⟨1, 1, 1, true, 0⟩]⟩).1.progress.find?
        (fun q => q.userId == 1 && q.lessonId == 1)) = some p ∧
      p.score = min 25 (totalPossiblePoints [⟨1, 20, true⟩] 1) ∧
      (25 > totalPossiblePoints [⟨1, 20, true⟩] 1 →
        p.score = totalPossiblePoints [⟨1, 20, true⟩] 1) :=
  completeLesson_clamps_score [⟨1, 1, "Basics", true⟩] [⟨1, 20, true⟩] 1 1 25 60 0
    ⟨⟨0, 1, 0, none⟩, [], [], [⟨1, 1, 1, true, 0⟩]⟩ ⟨1, 1, "Basics", true⟩
    ⟨1, 1, 1, true, 0⟩ rfl rfl

/-- `C2` — a completion adds `floor(finalScore / 10)` to experience, derives
the new level as `floor(newExperience / 100) + 1`, reports both in the
response, and creates a `level_up` achievement (titled with the new level)
exactly when the new level exceeds the prior level. -/
theorem completeLesson_experience_levelup (lessons : List LessonRow)
    (exercises : List ExerciseRow) (userId lessonId : Nat)
    (score timeSpent now : Int) (st : St) (lesson : LessonRow)
    (enrollment : EnrollmentRow) (g nl : Int)
    (hLesson : lessons.find? (fun l => l.id == lessonId && l.isActive) = some lesson)
    (hEnroll : st.enrollments.find? (fun e =>
      e.userId == userId && e.languageId == lesson.languageId && e.isActive) =
      some enrollment)
    (hg : g = Int.fdiv (min score (totalPossiblePoints exercises lessonId)) 10)
    (hnl : nl = Int.fdiv (st.user.experience + g) 100 + 1) :
    (completeLesson fxAll lessons exercises userId lessonId score timeSpent now
      st).2 = .ok { experienceGained := g, newLevel := nl } ∧
    (completeLesson fxAll lessons exercises userId lessonId score timeSpent now
      st).1.user.experience = st.user.experience + g ∧
    (completeLesson fxAll lessons exercises userId lessonId score timeSpent now
      st).1.user.level = nl ∧
    ∃ rest, (rest = [] ∨ rest = [perfectScoreAchievement userId lesson.title]) ∧
      (completeLesson fxAll lessons exercises userId lessonId score timeSpent now
        st).1.achievements = st.achievements ++
        (if nl > st.user.level then [levelUpAchievement userId nl] else []) ++ rest := by
  rw [completeLesson_ok lessons exercises userId lessonId score timeSpent now st
    lesson enrollment g nl hLesson hEnroll hg hnl]
  refine ⟨rfl, rfl, rfl, ?_⟩
  by_cases hPs : min score (totalPossiblePoints exercises lessonId) =
      totalPossiblePoints exercises lessonId ∧
      st.achievements.any (perfectPred userId lesson.title) = false
  · exact ⟨[perfectScoreAchievement userId lesson.title], Or.inr rfl,
      by rw [if_pos hPs]⟩
  · exact ⟨[], Or.inl rfl, by rw [if_neg hPs]⟩

/-- Witness for `C2`: the spec scenario — experience 95, a 50-point lesson
completed with score 50 — gains 5 experience, reaches experience 100 and
level 2, and emits the level-up achievement (2 > 1). -/
theorem completeLesson_experience_levelup_witness :
    (completeLesson fxAll [⟨1, 1, "Basics", true⟩] [⟨1, 50, true⟩] 1 1 50 60 0
      ⟨⟨95, 1, 0, none⟩, [], [], [⟨1, 1, 1, true, 0⟩]⟩).2 =
      .ok { experienceGained := 5, newLevel := 2 } ∧
    (completeLesson fxAll [⟨1, 1, "Basics", true⟩] [⟨1, 50, true⟩] 1 1 50 60 0
      ⟨⟨95, 1, 0, none⟩, [], [], [⟨1, 1, 1, true, 0⟩]⟩).1.user.experience = 95 + 5 ∧
    (completeLesson fxAll [⟨1, 1, "Basics", true⟩] [⟨1, 50, true⟩] 1 1 50 60 0
      ⟨⟨95, 1, 0, none⟩, [], [], [⟨1, 1, 1, true, 0⟩]⟩).1.user.level = 2 ∧
    ∃ rest, (rest = [] ∨ rest = [perfectScoreAchievement 1 "Basics"]) ∧
      (completeLesson fxAll [⟨1, 1, "Basics", true⟩] [⟨1, 50, true⟩] 1 1 50 60 0
        ⟨⟨95, 1, 0, none⟩, [], [], [⟨1, 1, 1, true, 0⟩]⟩).1.achievements = [] ++
        (if (2 : Int) > (1 : Int) then [levelUpAchievement 1 2] else []) ++ rest :=
  completeLesson_experience_levelup [⟨1, 1, "Basics", true⟩] [⟨1, 50, true⟩] 1 1
    50 60 0 ⟨⟨95, 1, 0, none⟩, [], [], [⟨1, 1, 1, true, 0⟩]⟩
    ⟨1, 1, "Basics", true⟩ ⟨1, 1, 1, true, 0⟩ 5 2 rfl rfl (by decide) (by decide)

/-- `C3` — the invariant `level = floor(experience / 100) + 1`: the completion
path re-derives the level from the updated experience, and neither the streak
check nor enrollment nor unenrollment modifies experience or level. -/
theorem level_invariant_after_mutations (lessons : List LessonRow)
    (exercises : List ExerciseRow) (userId lessonId : Nat)
    (score timeSpent now : Int) (st : St) (lesson : LessonRow)
    (enrollment : EnrollmentRow)
    (hLesson : lessons.find? (fun l => l.id == lessonId && l.isActive) = some lesson)
    (hEnroll : st.enrollments.find? (fun e =>
      e.userId == userId && e.languageId == lesson.languageId && e.isActive) =
      some enrollment) :
    (completeLesson fxAll lessons exercises userId lessonId score timeSpent now
        st).1.user.level =
      Int.fdiv (completeLesson fxAll lessons exercises userId lessonId score
        timeSpent now st).1.user.experience 100 + 1 ∧
    (∀ t u, (checkStreak t u).1.experience = u.experience ∧
      (checkStreak t u).1.level = u.level) ∧
    (∀ languages uid lid fid t s s', enroll languages uid lid fid t s = .ok s' →
      s'.user = s.user) ∧
    (∀ uid lid s s', unenroll uid lid s = .ok s' → s'.user = s.user) := by
  refine ⟨?_, ?_, ?_, ?_⟩
  · rw [completeLesson_ok lessons exercises userId lessonId score timeSpent now
      st lesson enrollment _ _ hLesson hEnroll rfl rfl]
  · intro t u
    unfold checkStreak
    cases u.lastLogin <;> dsimp only <;> split_ifs <;> exact ⟨rfl, rfl⟩
  · intro languages uid lid fid t s s' h
    unfold enroll at h
    split at h
    · exact absurd h (by simp)
    · split at h
      · split at h
        · exact absurd h (by simp)
        · cases h
          rfl
      · cases h
        rfl
  · intro uid lid s s' h
    unfold unenroll at h
    split at h
    · exact absurd h (by simp)
    · cases h
      rfl

/-- Witness for `C3`: a concrete completion re-derives the level; a concrete
streak check, enrollment and unenrollment leave the user record untouched. -/
theorem level_invariant_after_mutations_witness :
    ((completeLesson fxAll [⟨1, 1, "Basics", true⟩] [⟨1, 50, true⟩] 1 1 50 60 0
        ⟨⟨95, 1, 0, none⟩, [], [], [⟨1, 1, 1, true, 0⟩]⟩).1.user.level =
      Int.fdiv (completeLesson fxAll [⟨1, 1, "Basics", true⟩] [⟨1, 50, true⟩] 1 1
        50 60 0 ⟨⟨95, 1, 0, none⟩, [], [],
        [⟨1, 1, 1, true, 0⟩]⟩).1.user.experience 100 + 1) ∧
    ((checkStreak msPerDay ⟨95, 1, 3, some 0⟩).1.experience = 95 ∧
      (checkStreak msPerDay ⟨95, 1, 3, some 0⟩).1.level = 1) ∧
    (⟨⟨95, 1, 0, none⟩, [], [],
        [⟨1, 1, 1, true, 0⟩, ⟨9, 1, 2, true, 0⟩]⟩ : St).user = ⟨95, 1, 0, none⟩ ∧
    (⟨⟨95, 1, 0, none⟩, [], [], [⟨1, 1, 1, false, 0⟩]⟩ : St).user = ⟨95, 1, 0, none⟩ := by
  have h := level_invariant_after_mutations [⟨1, 1, "Basics", true⟩]
    [⟨1, 50, true⟩] 1 1 50 60 0 ⟨⟨95, 1, 0, none⟩, [], [], [⟨1, 1, 1, true, 0⟩]⟩
    ⟨1, 1, "Basics", true⟩ ⟨1, 1, 1, true, 0⟩ rfl rfl
  refine ⟨h.1, h.2.1 msPerDay ⟨95, 1, 3, some 0⟩, ?_, ?_⟩
  · exact h.2.2.1 [⟨2, true⟩] 1 2 9 0 ⟨⟨95, 1, 0, none⟩, [], [], [⟨1, 1, 1, true, 0⟩]⟩
      ⟨⟨95, 1, 0, none⟩, [], [], [⟨1, 1, 1, true, 0⟩, ⟨9, 1, 2, true, 0⟩]⟩ rfl
  · exact h.2.2.2 1 1 ⟨⟨95, 1, 0, none⟩, [], [], [⟨1, 1, 1, true, 0⟩]⟩
      ⟨⟨95, 1, 0, none⟩, [], [], [⟨1, 1, 1, false, 0⟩]⟩ rfl

theorem countP_perfect_levelUpList (userId uid : Nat) (t : String) (n : Int)
    (b : Prop) [Decidable b] :
    (if b then [levelUpAchievement uid n] else []).countP (perfectPred userId t) = 0 := by
  split_ifs
  · simp [List.countP_cons, List.countP_nil, perfectPred_levelUpAchievement]
  · simp

theorem countP_perfect_perfectList (userId : Nat) (t : String)
    (b : Prop) [Decidable b] :
    (if b then [perfectScoreAchievement userId t] else []).countP
      (perfectPred userId t) = if b then 1 else 0 := by
  split_ifs
  · simp [List.countP_cons, List.countP_nil, perfectPred_perfectScoreAchievement]
  · simp

/-- `C4` (counterexample) — the source has no `totalPossiblePoints > 0` guard:
completing a lesson with zero active exercises (total 0) at reported score 0
creates a `perfect_score` achievement, which the claim forbids. -/
theorem perfect_score_zero_total_counterexample :
    totalPossiblePoints ([] : List ExerciseRow) 1 = 0 ∧
    ((completeLesson fxAll [⟨1, 1, "Empty", true⟩] [] 1 1 0 0 0
      ⟨⟨0, 1, 0, none⟩, [], [], [⟨1, 1, 1, true, 0⟩]⟩).1.achievements.any
      (perfectPred 1 "Empty")) = true := by
  decide

/-- `C4` (amended) — a `perfect_score` achievement titled
`"Perfect Score in <lessonTitle>"` is created by a completion exactly when
`finalScore = totalPossiblePoints` (with no positivity requirement) and no
achievement of that user, type and exact title exists; hence at most one such
achievement per (user, title) survives repeated identical completions. -/
theorem completeLesson_perfect_dedup (lessons : List LessonRow)
    (exercises : List ExerciseRow) (userId lessonId : Nat)
    (score timeSpent now : Int) (st : St) (lesson : LessonRow)
    (enrollment : EnrollmentRow)
    (hLesson : lessons.find? (fun l => l.id == lessonId && l.isActive) = some lesson)
    (hEnroll : st.enrollments.find? (fun e =>
      e.userId == userId && e.languageId == lesson.languageId && e.isActive) =
      some enrollment) :
    ((completeLesson fxAll lessons exercises userId lessonId score timeSpent now
        st).1.achievements.countP (perfectPred userId lesson.title) =
      st.achievements.countP (perfectPred userId lesson.title) +
      (if min score (totalPossiblePoints exercises lessonId) =
          totalPossiblePoints exercises lessonId ∧
          st.achievements.any (perfectPred userId lesson.title) = false
        then 1 else 0)) ∧
    (st.achievements.countP (perfectPred userId lesson.title) ≤ 1 →
      (completeLesson fxAll lessons exercises userId lessonId score timeSpent now
        st).1.achievements.countP (perfectPred userId lesson.title) ≤ 1) := by
  rw [completeLesson_ok lessons exercises userId lessonId score timeSpent now st
    lesson enrollment _ _ hLesson hEnroll rfl rfl]
  dsimp only
  rw [List.countP_append, List.countP_append, countP_perfect_levelUpList,
    countP_perfect_perfectList]
  constructor
  · omega
  · intro h1
    by_cases hPs : min score (totalPossiblePoints exercises lessonId) =
        totalPossiblePoints exercises lessonId ∧
        st.achievements.any (perfectPred userId lesson.title) = false
    · have hzero : st.achievements.countP (perfectPred userId lesson.title) = 0 := by
        rw [List.countP_eq_zero]
        intro a ha
        have := List.any_eq_false.mp hPs.2 a ha
        simp [this]
      rw [if_pos hPs, hzero]
    · rw [if_neg hPs]
      omega

/-- Witness for `C4` (amended form): a 20-point lesson completed with a raw
score of 25 clamps to 20 = total and creates exactly one perfect-score
achievement, there being none before. -/
theorem completeLesson_perfect_dedup_witness :
    ((completeLesson fxAll [⟨1, 1, "Basics", true⟩] [⟨1, 20, true⟩] 1 1 25 60 0
        ⟨⟨0, 1, 0, none⟩, [], [], [⟨1, 1, 1, true, 0⟩]⟩).1.achievements.countP
        (perfectPred 1 "Basics") =
      ([] : List AchievementRow).countP (perfectPred 1 "Basics") +
      (if min 25 (totalPossiblePoints [⟨1, 20, true⟩] 1) =
          totalPossiblePoints [⟨1, 20, true⟩] 1 ∧
          ([] : List AchievementRow).any (perfectPred 1 "Basics") = false
        then 1 else 0)) ∧
    (([] : List AchievementRow).countP (perfectPred 1 "Basics") ≤ 1 →
      (completeLesson fxAll [⟨1, 1, "Basics", true⟩] [⟨1, 20, true⟩] 1 1 25 60 0
        ⟨⟨0, 1, 0, none⟩, [], [], [⟨1, 1, 1, true, 0⟩]⟩).1.achievements.countP
        (perfectPred 1 "Basics") ≤ 1) :=
  completeLesson_perfect_dedup [⟨1, 1, "Basics", true⟩] [⟨1, 20, true⟩] 1 1 25 60
    0 ⟨⟨0, 1, 0, none⟩, [], [], [⟨1, 1, 1, true, 0⟩]⟩ ⟨1, 1, "Basics", true⟩
    ⟨1, 1, 1, true, 0⟩ rfl rfl

/-- `C5` (counterexample) — the handler is not atomic: with the user-update
write rejecting after a successful progress upsert, the request fails with
the internal error, yet a Progress row is already visible while the user's
experience was never updated. -/
theorem completeLesson_not_atomic_counterexample :
    ((completeLesson ⟨true, false, true, true⟩ [⟨1, 1, "Basics", true⟩]
        [⟨1, 20, true⟩] 1 1 10 60 0
        ⟨⟨0, 1, 0, none⟩, [], [], [⟨1, 1, 1, true, 0⟩]⟩).2 =
      .error .internal) ∧
    ((completeLesson ⟨true, false, true, true⟩ [⟨1, 1, "Basics", true⟩]
        [⟨1, 20, true⟩] 1 1 10 60 0
        ⟨⟨0, 1, 0, none⟩, [], [], [⟨1, 1, 1, true, 0⟩]⟩).1.progress =
      [⟨1, 1, 1, 10, 60, true, some 0⟩]) ∧
    (([] : List ProgressRow) ≠ [⟨1, 1, 1, 10, 60, true, some 0⟩]) ∧
    ((completeLesson ⟨true, false, true, true⟩ [⟨1, 1, "Basics", true⟩]
        [⟨1, 20, true⟩] 1 1 10 60 0
        ⟨⟨0, 1, 0, none⟩, [], [], [⟨1, 1, 1, true, 0⟩]⟩).1.user =
      ⟨0, 1, 0, none⟩) :=
  ⟨rfl, rfl, by decide, rfl⟩

theorem completeLesson_error_internal_of_found (fx : DbFx)
    (lessons : List LessonRow) (exercises : List ExerciseRow)
    (userId lessonId : Nat) (score timeSpent now : Int) (st : St)
    (e : CompleteErr) (lesson : LessonRow) (enrollment : EnrollmentRow)
    (hL : lessons.find? (fun l => l.id == lessonId && l.isActive) = some lesson)
    (hE : st.enrollments.find? (fun r =>
      r.userId == userId && r.languageId == lesson.languageId && r.isActive) =
      some enrollment)
    (hRun : (completeLesson fx lessons exercises userId lessonId score timeSpent
      now st).2 = .error e) :
    e = CompleteErr.internal := by
  unfold completeLesson at hRun
  rw [hL] at hRun
  dsimp only at hRun
  rw [hE] at hRun
  dsimp only at hRun
  split_ifs at hRun <;> cases hRun <;> rfl

/-- `C5` (amended) — the two validation failures are free of side effects:
whenever a completion fails with `LessonNotFound` or `NotEnrolled` (any
non-`internal` error), the state is exactly the input state; a persistence
fault partway through, however, leaves the earlier writes visible. -/
theorem completeLesson_early_failure_pure (fx : DbFx) (lessons : List LessonRow)
    (exercises : List ExerciseRow) (userId lessonId : Nat)
    (score timeSpent now : Int) (st : St) (e : CompleteErr)
    (hRun : (completeLesson fx lessons exercises userId lessonId score timeSpent
      now st).2 = .error e)
    (hNe : e ≠ CompleteErr.internal) :
    (completeLesson fx lessons exercises userId lessonId score timeSpent now
      st).1 = st := by
  cases hL : lessons.find? (fun l => l.id == lessonId && l.isActive) with
  | none =>
      unfold completeLesson
      rw [hL]
  | some lesson =>
    cases hE : st.enrollments.find? (fun r =>
        r.userId == userId && r.languageId == lesson.languageId && r.isActive) with
    | none =>
        unfold completeLesson
        rw [hL]
        dsimp only
        rw [hE]
    | some enrollment =>
        exact absurd (completeLesson_error_internal_of_found fx lessons exercises
          userId lessonId score timeSpent now st e lesson enrollment hL hE hRun) hNe

/-- Witness for `C5` (amended form): a user with no enrollment row at all —
the completion fails with `NotEnrolled` and the state is unchanged. -/
theorem completeLesson_early_failure_pure_witness :
    (completeLesson fxAll [⟨1, 1, "Basics", true⟩] [⟨1, 20, true⟩] 1 1 10 60 0
      ⟨⟨0, 1, 0, none⟩, [], [], []⟩).1 = ⟨⟨0, 1, 0, none⟩, [], [], []⟩ :=
  completeLesson_early_failure_pure fxAll [⟨1, 1, "Basics", true⟩]
    [⟨1, 20, true⟩] 1 1 10 60 0 ⟨⟨0, 1, 0, none⟩, [], [], []⟩
    CompleteErr.notEnrolled rfl (by decide)

/-- `C9` — under the data-model invariant `level = floor(experience/100) + 1`,
a non-negative reported score and non-negative exercise points, the level
computed by a completion is at least the user's prior level. -/
theorem completeLesson_level_monotone (lessons : List LessonRow)
    (exercises : List ExerciseRow) (userId lessonId : Nat)
    (score timeSpent now : Int) (st : St) (lesson : LessonRow)
    (enrollment : EnrollmentRow)
    (hLesson : lessons.find? (fun l => l.id == lessonId && l.isActive) = some lesson)
    (hEnroll : st.enrollments.find? (fun e =>
      e.userId == userId && e.languageId == lesson.languageId && e.isActive) =
      some enrollment)
    (hInv : st.user.level = Int.fdiv st.user.experience 100 + 1)
    (hScore : 0 ≤ score)
    (hPts : ∀ ex ∈ exercises, 0 ≤ ex.points) :
    st.user.level ≤ (completeLesson fxAll lessons exercises userId lessonId score
      timeSpent now st).1.user.level := by
  rw [completeLesson_ok lessons exercises userId lessonId score timeSpent now st
    lesson enrollment _ _ hLesson hEnroll rfl rfl]
  dsimp only
  rw [hInv]
  have hfs : 0 ≤ min score (totalPossiblePoints exercises lessonId) :=
    le_min hScore (totalPossiblePoints_nonneg exercises lessonId hPts)
  have hg : 0 ≤ Int.fdiv (min score (totalPossiblePoints exercises lessonId)) 10 :=
    Int.fdiv_nonneg hfs (by norm_num)
  have hmono := fdiv_le_fdiv_of_le st.user.experience
    (st.user.experience + Int.fdiv (min score (totalPossiblePoints exercises lessonId)) 10)
    100 (by norm_num) (by omega)
  omega

/-- Witness for `C9`: experience 95 at level 1 completing a 50-point lesson —
the prior level 1 is no greater than the newly computed level (2). -/
theorem completeLesson_level_monotone_witness :
    (⟨⟨95, 1, 0, none⟩, [], [], [⟨1, 1, 1, true, 0⟩]⟩ : St).user.level ≤
      (completeLesson fxAll [⟨1, 1, "Basics", true⟩] [⟨1, 50, true⟩] 1 1 50 60 0
        ⟨⟨95, 1, 0, none⟩, [], [], [⟨1, 1, 1, true, 0⟩]⟩).1.user.level :=
  completeLesson_level_monotone [⟨1, 1, "Basics", true⟩] [⟨1, 50, true⟩] 1 1 50
    60 0 ⟨⟨95, 1, 0, none⟩, [], [], [⟨1, 1, 1, true, 0⟩]⟩ ⟨1, 1, "Basics", true⟩
    ⟨1, 1, 1, true, 0⟩ rfl rfl (by decide) (by decide) (by decide)
